import Mathlib

/-!
# Audio-Transcriber — language-routing core, shallow embedding

This file embeds the language-routing decision pipeline of the
Audio-Transcriber repository (package `transcribe_audio`): the keyword
language classifier, the ffmpeg media slicer, the probe-based language
detector, response normalization, audio-file validation, the top-level
orchestrator `transcribe_audio`, and the `TranscriptionConfig` accessors.

The repository ships the test suite (`tests/test_core`, `tests/test_config`),
the CLI and the package declarations, but the bodies of
`core/language_detection.py`, `core/transcription.py` and
`config/transcription_config.py` are not present; those functions are
modelled from the specification (spec.md), with the concrete constants the
test suite pins down (the failure sentinel `/__ffmpeg_failed__.wav`, the
probe file name `probe.wav`, the error-message texts, the config defaults).

External collaborators (the remote transcription API, the ffmpeg
subprocess, the real file system) are passed in as explicit oracle values:
an `Except` value stands for a call that either returns or raises, and a
small `FS` record of file/directory paths stands for the file system.
-/

/-! ## String utilities (Python `str.lower`, `str.count`, substring tests) -/

/-- Lowercase a character: ASCII `A`–`Z` plus the Latin-1 accented capitals
(`À`–`Þ` except `×`), mirroring the fragment of Python `str.lower` exercised
by the keyword lists. -/
def lowerChar (c : Char) : Char :=
  if 65 ≤ c.toNat ∧ c.toNat ≤ 90 then Char.ofNat (c.toNat + 32)
  else if 192 ≤ c.toNat ∧ c.toNat ≤ 222 ∧ c.toNat ≠ 215 then Char.ofNat (c.toNat + 32)
  else c

/-- Lowercase a string character-wise. -/
def lowerStr (s : String) : String := String.mk (s.data.map lowerChar)

/-- Fuel-driven count of non-overlapping occurrences of `p` in the third
argument, as Python `str.count`; the fuel is the length of the scanned text,
which suffices because each step consumes at least one character. -/
def countOccsAux (p : List Char) : Nat → List Char → Nat
  | 0, _ => 0
  | _ + 1, [] => 0
  | fuel + 1, c :: rest =>
    if p.isPrefixOf (c :: rest) then 1 + countOccsAux p fuel ((c :: rest).drop p.length)
    else countOccsAux p fuel rest

/-- Number of non-overlapping occurrences of `p` in `t` (Python `t.count(p)`). -/
def countOccs (p t : List Char) : Nat := countOccsAux p t.length t

/-- Does `sub` occur as a contiguous segment of the second list? -/
def segIn (sub : List Char) : List Char → Bool
  | [] => sub.isEmpty
  | c :: rest => sub.isPrefixOf (c :: rest) || segIn sub rest

/-- `p` occurs as a contiguous segment of `s` (Python `p in s`). -/
def strContainsSub (s p : String) : Bool := segIn p.data s.data

/-- `s` starts with `p` (Python `s.startswith(p)`). -/
def strHasStart (s p : String) : Bool := p.data.isPrefixOf s.data

theorem isPrefixOf_append_left {α : Type} [BEq α] (p l r : List α)
    (h : p.isPrefixOf l = true) : p.isPrefixOf (l ++ r) = true := by
  induction p generalizing l with
  | nil => simp [List.isPrefixOf]
  | cons a as ih =>
    cases l with
    | nil => simp [List.isPrefixOf] at h
    | cons b bs =>
      simp only [List.isPrefixOf, Bool.and_eq_true] at h ⊢
      exact ⟨h.1, ih bs h.2⟩

theorem isPrefixOf_self_append {α : Type} [BEq α] [LawfulBEq α] (p r : List α) :
    p.isPrefixOf (p ++ r) = true := by
  induction p with
  | nil => simp [List.isPrefixOf]
  | cons a as ih => simp [List.isPrefixOf, ih]

theorem segIn_of_parts (pre sub post : List Char) :
    segIn sub (pre ++ sub ++ post) = true := by
  induction pre with
  | nil =>
    cases hsub : sub with
    | nil =>
      cases hpost : post with
      | nil => simp [segIn, List.isEmpty]
      | cons c cs => simp [segIn, List.isPrefixOf]
    | cons c cs =>
      simp only [List.nil_append, List.cons_append]
      simp only [segIn, Bool.or_eq_true]
      left
      exact isPrefixOf_self_append (α := Char) (c :: cs) post
  | cons c cs ih =>
    simp only [List.cons_append, segIn, Bool.or_eq_true]
    right
    exact ih

/-- A string built as `a ++ b ++ c` contains `b` as a segment. -/
theorem strContainsSub_middle (a b c : String) :
    strContainsSub (a ++ b ++ c) b = true := by
  have hdata : (a ++ b ++ c).data = a.data ++ b.data ++ c.data := rfl
  simp only [strContainsSub, hdata]
  exact segIn_of_parts a.data b.data c.data

/-- A string built as `p ++ r` starts with `p`. -/
theorem strHasStart_append (p r : String) : strHasStart (p ++ r) p = true := by
  have hdata : (p ++ r).data = p.data ++ r.data := rfl
  simp only [strHasStart, hdata]
  exact isPrefixOf_self_append p.data r.data

/-! ## TranscriptionConfig (modelled) -/

/-- A configuration value of the heterogeneous `DEFAULTS` dictionary. -/
inductive ConfigVal where
  | natV (n : Nat)
  | boolV (b : Bool)
  | numV (q : Rat)
  | strV (s : String)
deriving DecidableEq, Repr

namespace TranscriptionConfig

/-- Modelled from the spec: `TranscriptionConfig.MODELS` of the missing
`config/transcription_config.py`; entries pinned by
`tests/test_config/test_transcription_config.py`. -/
def MODELS : List (String × String) :=
  [("main", "gpt-4o-transcribe"), ("detect", "gpt-4o-mini-transcribe")]

/-- Modelled from the spec: `TranscriptionConfig.get_model` of the missing
`config/transcription_config.py` — look the model type up in `MODELS` and
fall back to the `main` entry for an unrecognized type. -/
def get_model (modelType : String) : String :=
  match List.lookup modelType MODELS with
  | some m => m
  | none => (List.lookup "main" MODELS).getD ""

/-- Modelled from the spec: `TranscriptionConfig.DEFAULTS` of the missing
`config/transcription_config.py`; entries pinned by the test suite
(`temperature = 0.0`, `probe_seconds = 25`, `language_routing = False`). -/
def DEFAULTS : List (String × ConfigVal) :=
  [("temperature", ConfigVal.numV 0),
   ("probe_seconds", ConfigVal.natV 25),
   ("language_routing", ConfigVal.boolV false)]

/-- Modelled from the spec: `TranscriptionConfig.get_default` of the missing
`config/transcription_config.py` — dictionary lookup returning the supplied
fallback (Python default `None`, here `Option.none`) on a missing key. -/
def get_default (key : String) (fallback : Option ConfigVal) : Option ConfigVal :=
  match List.lookup key DEFAULTS with
  | some v => some v
  | none => fallback

/-- Modelled from the spec: `TranscriptionConfig.LANGUAGE_KEYWORDS` of the
missing `config/transcription_config.py` — the ordered per-language keyword
registry; languages and several keywords pinned by the test suite, the
registration order fixed here as the documented tie-break precedence. -/
def LANGUAGE_KEYWORDS : List (String × List String) :=
  [("pt", ["obrigado", "olá", "bom dia", "muito", "atenção"]),
   ("es", ["gracias", "hola", "buenos días", "atención", "por favor"]),
   ("en", ["thank you", "hello", "good morning", "please"]),
   ("fr", ["bonjour", "merci", "au revoir", "beaucoup"]),
   ("de", ["hallo", "guten tag", "danke", "bitte"]),
   ("it", ["ciao", "buongiorno", "grazie", "per favore"]),
   ("nl", ["goedemorgen", "dank je", "alstublieft", "tot ziens"]),
   ("ru", ["спасибо", "здравствуйте", "пожалуйста"]),
   ("zh", ["谢谢", "你好", "再见"]),
   ("ja", ["ありがとう", "こんにちは", "さようなら"])]

/-- Modelled from the spec: `TranscriptionConfig.get_language_keywords` of
the missing `config/transcription_config.py` — keyword lookup returning the
empty list for an unsupported language code. -/
def get_language_keywords (lang : String) : List String :=
  (List.lookup lang LANGUAGE_KEYWORDS).getD []

/-- Modelled from the spec: `TranscriptionConfig.ALLOWED_EXTENSIONS` —
allowed input extensions (spec §6). -/
def ALLOWED_EXTENSIONS : List String := ["mp3", "m4a", "wav"]

/-- Modelled from the spec: `TranscriptionConfig.is_extension_allowed` of the
missing `config/transcription_config.py` — lowercase, strip leading dots,
test membership in the allowed set (behaviour pinned by
`TestIsExtensionAllowed`). -/
def is_extension_allowed (ext : String) : Bool :=
  ALLOWED_EXTENSIONS.contains
    (String.mk ((lowerStr ext).data.dropWhile (fun c => c = '.')))

end TranscriptionConfig

/-! ## KeywordLanguageClassifier — `detect_language_from_text` -/

/-- Case-insensitive keyword score of one language against a text: the sum
over the language's keywords of the number of substring occurrences in the
lowercased text. -/
def languageScore (keywords : List String) (text : String) : Nat :=
  (keywords.map (fun kw => countOccs (lowerStr kw).data (lowerStr text).data)).sum

/-- The per-language scores of a text, in keyword-registration order. -/
def languageScores (text : String) : List (String × Nat) :=
  TranscriptionConfig.LANGUAGE_KEYWORDS.map (fun p => (p.1, languageScore p.2 text))

/-- Left fold keeping the current best-scoring language; a later language
replaces the current best only on a strictly greater score, so the first
registered language wins ties, and a language needs a positive score to
displace the initial empty best. -/
def bestAux : List (String × Nat) → Option String → Nat → Option String
  | [], best, _ => best
  | (l, s) :: rest, best, bestScore =>
    if bestScore < s then bestAux rest (some l) s else bestAux rest best bestScore

/-- Modelled from the spec: `detect_language_from_text` of the missing
`core/language_detection.py` (spec §4.1) — score every supported language
by case-insensitive keyword occurrence counts and return the strictly
best-scoring language, ties resolved to the earliest registered language,
`none` when every language scores zero. -/
def detect_language_from_text (text : String) : Option String :=
  bestAux (languageScores text) none 0

theorem bestAux_spec (xs : List (String × Nat)) :
    ∀ (best : Option String) (b : Nat),
      ((∀ p ∈ xs, p.2 ≤ b) ∧ bestAux xs best b = best)
      ∨ (∃ pre l s suf, xs = pre ++ (l, s) :: suf ∧ b < s
          ∧ bestAux xs best b = some l
          ∧ (∀ p ∈ pre, p.2 < s) ∧ (∀ p ∈ suf, p.2 ≤ s)) := by
  induction xs with
  | nil =>
    intro best b
    left
    exact ⟨by simp, rfl⟩
  | cons hd rest ih =>
    intro best b
    obtain ⟨l₀, s₀⟩ := hd
    by_cases hlt : b < s₀
    · rcases ih (some l₀) s₀ with ⟨hall, heq⟩ | ⟨pre, l, s, suf, hx, hbs, heq, hpre, hsuf⟩
      · right
        refine ⟨[], l₀, s₀, rest, by simp, hlt, ?_, by simp, hall⟩
        simpa [bestAux, hlt] using heq
      · right
        refine ⟨(l₀, s₀) :: pre, l, s, suf, by simp [hx], lt_trans hlt hbs, ?_, ?_, hsuf⟩
        · simpa [bestAux, hlt] using heq
        · intro p hp
          rcases List.mem_cons.1 hp with h | h
          · subst h; exact hbs
          · exact hpre p h
    · push_neg at hlt
      rcases ih best b with ⟨hall, heq⟩ | ⟨pre, l, s, suf, hx, hbs, heq, hpre, hsuf⟩
      · left
        constructor
        · intro p hp
          rcases List.mem_cons.1 hp with h | h
          · subst h; exact hlt
          · exact hall p h
        · simpa [bestAux, Nat.not_lt.2 hlt] using heq
      · right
        refine ⟨(l₀, s₀) :: pre, l, s, suf, by simp [hx], hbs, ?_, ?_, hsuf⟩
        · simpa [bestAux, Nat.not_lt.2 hlt] using heq
        · intro p hp
          rcases List.mem_cons.1 hp with h | h
          · subst h; exact lt_of_le_of_lt hlt hbs
          · exact hpre p h

/-- Claim C5: `detect_language_from_text` counts case-insensitive substring
occurrences of each supported language's keywords (that is what
`languageScores` computes) and returns the language with the strictly
highest count; on a tie it returns the language registered first (every
score before the winner is strictly below it, every score after it is at
most it); it returns `none` exactly when every language scores zero,
including on the empty string. -/
theorem detect_language_from_text_spec (text : String) :
    (detect_language_from_text text = none ↔ ∀ p ∈ languageScores text, p.2 = 0)
    ∧ (∀ l, detect_language_from_text text = some l →
        ∃ pre s suf, languageScores text = pre ++ (l, s) :: suf
          ∧ 0 < s ∧ (∀ p ∈ pre, p.2 < s) ∧ (∀ p ∈ suf, p.2 ≤ s))
    ∧ detect_language_from_text "" = none := by
  refine ⟨?_, ?_, by decide⟩
  · rcases bestAux_spec (languageScores text) none 0 with ⟨hall, heq⟩ |
      ⟨pre, l, s, suf, hx, hbs, heq, hpre, hsuf⟩
    · constructor
      · intro _ p hp
        exact Nat.le_zero.1 (hall p hp)
      · intro _
        exact heq
    · constructor
      · intro hnone
        rw [detect_language_from_text] at hnone
        rw [hnone] at heq
        exact absurd heq (by simp)
      · intro hzero
        have hmem : (l, s) ∈ languageScores text := by
          rw [hx]; exact List.mem_append.2 (Or.inr (List.mem_cons_self _ _))
        have := hzero (l, s) hmem
        omega
  · intro l' hl'
    rcases bestAux_spec (languageScores text) none 0 with ⟨_, heq⟩ |
      ⟨pre, l, s, suf, hx, hbs, heq, hpre, hsuf⟩
    · rw [detect_language_from_text] at hl'
      rw [heq] at hl'
      exact absurd hl' (by simp)
    · rw [detect_language_from_text] at hl'
      rw [heq] at hl'
      have hll : l = l' := Option.some.inj hl'
      subst hll
      exact ⟨pre, s, suf, hx, hbs, hpre, hsuf⟩

/-- Witness for C5: on text with no keywords the classifier returns `none`;
on the single Portuguese keyword `obrigado` the winner is `pt` with a
positive strictly-maximal score. -/
theorem detect_language_from_text_spec_witness :
    detect_language_from_text "lorem ipsum" = none
    ∧ ∃ pre s suf, languageScores "obrigado" = pre ++ ("pt", s) :: suf
        ∧ 0 < s ∧ (∀ p ∈ pre, p.2 < s) ∧ (∀ p ∈ suf, p.2 ≤ s) :=
  ⟨(detect_language_from_text_spec "lorem ipsum").1.mpr (by decide),
   (detect_language_from_text_spec "obrigado").2.1 "pt" (by decide)⟩

/-! ## File-system model and MediaSlicer — `slice_with_ffmpeg` -/

/-- The file system visible to the routing operation: the set of existing
file paths and directory paths, as lists. -/
structure FS where
  files : List String
  dirs : List String
deriving DecidableEq, Repr

/-- Path existence check for a file (Python `Path.exists` on a file). -/
def FS.hasFile (fs : FS) (p : String) : Bool := fs.files.contains p

/-- Path existence check for a directory. -/
def FS.hasDir (fs : FS) (p : String) : Bool := fs.dirs.contains p

/-- Delete a file (Python `Path.unlink`). -/
def FS.removeFile (fs : FS) (p : String) : FS :=
  { fs with files := fs.files.filter (fun q => q != p) }

/-- Delete a directory (Python `Path.rmdir`). -/
def FS.removeDir (fs : FS) (p : String) : FS :=
  { fs with dirs := fs.dirs.filter (fun q => q != p) }

theorem not_mem_filter_ne (l : List String) (p : String) :
    p ∉ l.filter (fun q => q != p) := by
  intro h
  have := (List.mem_filter.1 h).2
  simp at this

/-- The probe artifact's file name inside its owning temp directory
(pinned by `test_successful_slice_creation`). -/
def probeFileName : String := "probe.wav"

/-- The sentinel FailureMarker returned when ffmpeg fails (pinned by
`test_ffmpeg_failure_returns_invalid_path`). -/
def ffmpegFailedPath : String := "/__ffmpeg_failed__.wav"

/-- The path of a real probe artifact owned by temp directory `tempDir`. -/
def probeFilePath (tempDir : String) : String := tempDir ++ "/" ++ probeFileName

/-- Result of a `slice_with_ffmpeg` call: the returned path, the file system
after the call, the lines printed to stderr, and the subprocess command that
was assembled. -/
structure SliceResult where
  path : String
  fs : FS
  stderr : List String
  cmd : List String

/-- Modelled from the spec: `slice_with_ffmpeg` of the missing
`core/language_detection.py` (spec §4.2) — create a fresh temp directory,
invoke ffmpeg bounded to `seconds` of mono fixed-rate output into
`<tempDir>/probe.wav`; on a nonzero exit or spawn failure (the
`Except.error` oracle case) print a non-fatal `WARNING` to stderr and
return the sentinel `ffmpegFailedPath` instead of raising. The
catch-all `except` of the source is modelled by this function being total
in the `ffmpegRun` oracle. -/
def slice_with_ffmpeg (fs : FS) (tempDir sourcePath : String) (seconds : Nat)
    (ffmpegRun : Except String Unit) : SliceResult :=
  let fs1 : FS := { fs with dirs := tempDir :: fs.dirs }
  let out := probeFilePath tempDir
  let cmd := ["ffmpeg", "-hide_banner", "-loglevel", "error", "-i", sourcePath,
              "-t", toString seconds, "-ac", "1", "-ar", "16000", out]
  match ffmpegRun with
  | Except.ok _ =>
      { path := out, fs := { fs1 with files := out :: fs1.files }, stderr := [], cmd := cmd }
  | Except.error e =>
      { path := ffmpegFailedPath, fs := fs1,
        stderr := ["WARNING: ffmpeg failed (" ++ e ++ "); falling back to full-file detection"],
        cmd := cmd }

theorem strHasStart_append_left (a b p : String) (h : strHasStart a p = true) :
    strHasStart (a ++ b) p = true := by
  unfold strHasStart at *
  have hd : (a ++ b).data = a.data ++ b.data := rfl
  rw [hd]
  exact isPrefixOf_append_left _ _ _ h

/-- The sentinel can never collide with a legitimate probe artifact path. -/
theorem probeFilePath_ne_failed (d : String) : probeFilePath d ≠ ffmpegFailedPath := by
  intro h
  have hdata : (d.data ++ ['/']) ++ probeFileName.data = ffmpegFailedPath.data :=
    congrArg String.data h
  have hlen := congrArg List.length hdata
  simp only [List.length_append, List.length_cons, List.length_nil] at hlen
  have hl : (d.data ++ ['/']).length = 13 := by
    have h9 : probeFileName.data.length = 9 := by decide
    have h22 : ffmpegFailedPath.data.length = 22 := by decide
    rw [h9] at hlen
    rw [h22] at hlen
    simp only [List.length_append, List.length_cons, List.length_nil]
    omega
  have h2 : probeFileName.data = List.drop 13 ffmpegFailedPath.data := by
    rw [← hl, ← hdata, List.drop_left]
  exact absurd h2 (by decide)

/-- Claim C4: `slice_with_ffmpeg` never raises past its boundary: for every
outcome of the external tool it returns a value. When the tool exits
nonzero or fails to spawn it prints a `WARNING: ffmpeg failed` line to the
error stream and returns the sentinel `ffmpegFailedPath`, which is distinct
from every legitimate probe artifact path `probeFilePath d`; on success it
returns the real probe artifact path. -/
theorem slice_with_ffmpeg_failure_contract :
    (∀ fs tempDir sourcePath seconds e,
       (slice_with_ffmpeg fs tempDir sourcePath seconds (Except.error e)).path = ffmpegFailedPath
       ∧ ∃ w ∈ (slice_with_ffmpeg fs tempDir sourcePath seconds (Except.error e)).stderr,
           strHasStart w "WARNING: ffmpeg failed" = true)
    ∧ (∀ d, probeFilePath d ≠ ffmpegFailedPath)
    ∧ (∀ fs tempDir sourcePath seconds u,
       (slice_with_ffmpeg fs tempDir sourcePath seconds (Except.ok u)).path
         = probeFilePath tempDir) := by
  refine ⟨?_, probeFilePath_ne_failed, ?_⟩
  · intro fs tempDir sourcePath seconds e
    constructor
    · rfl
    · refine ⟨("WARNING: ffmpeg failed (" ++ e) ++ "); falling back to full-file detection",
        ?_, ?_⟩
      · simp [slice_with_ffmpeg]
      · exact strHasStart_append_left _ _ _ (strHasStart_append_left _ _ _ (by decide))
  · intro fs tempDir sourcePath seconds u
    rfl

/-! ## LanguageRouter — `detect_language_with_probe` -/

/-- Result of a `detect_language_with_probe` call: the detected language (if
any), whether the ffmpeg probe artifact was used, the file system after the
call, the stderr lines, and the number of slicing and detection-API
invocations performed. -/
structure DetectResult where
  language : Option String
  ffmpegUsed : Bool
  fs : FS
  stderr : List String
  sliceCalls : Nat
  apiCalls : Nat

/-- The non-fatal warning printed when the detection API call raises. -/
def detectionWarning (e : String) : String :=
  ("WARNING: language detection failed (" ++ e) ++ ")"

/-- The `Detecting` step on the full audio file (tool unavailable, probe
disabled, or slice failed): call the detection API once; on an exception
absorb it into a warning and no language. `probeUsed` stays false. -/
def detectOnTarget (fs : FS) (errs : List String) (sliceCalls : Nat)
    (api : Except String String) : DetectResult :=
  match api with
  | Except.ok text =>
      { language := detect_language_from_text text, ffmpegUsed := false, fs := fs,
        stderr := errs, sliceCalls := sliceCalls, apiCalls := 1 }
  | Except.error e =>
      { language := none, ffmpegUsed := false, fs := fs,
        stderr := errs ++ [detectionWarning e], sliceCalls := sliceCalls, apiCalls := 1 }

/-- The `Detecting` step after `Sliced`: call the detection API once on the
probe artifact; on an exception absorb it into a warning and no language;
either way the caller passes in the file system with the probe artifact
already released (`finally` cleanup). `probeUsed` is true. -/
def detectOnProbe (cleanedFs : FS) (errs : List String) (api : Except String String) :
    DetectResult :=
  match api with
  | Except.ok text =>
      { language := detect_language_from_text text, ffmpegUsed := true, fs := cleanedFs,
        stderr := errs, sliceCalls := 1, apiCalls := 1 }
  | Except.error e =>
      { language := none, ffmpegUsed := true, fs := cleanedFs,
        stderr := errs ++ [detectionWarning e], sliceCalls := 1, apiCalls := 1 }

/-- Modelled from the spec: `detect_language_with_probe` of the missing
`core/language_detection.py` (spec §4.4) — if the probe is requested and
ffmpeg is available, attempt a slice; a real artifact (output path exists)
moves to `Sliced` (probe used, artifact deleted — file then owning
directory — on every exit path of the operation, including when the
detection call raises); a FailureMarker or tool unavailability moves to
`SkippedSlice` (detect on the full file, probe not used). Exceptions of the
detection call (the `Except.error` oracle case) are absorbed into a warning
and `none`. -/
def detect_language_with_probe (fs : FS) (haveFF : Bool) (ffmpegRun : Except String Unit)
    (tempDir : String) (api : Except String String)
    (audioPath : String) (probeSeconds : Nat) (useProbe : Bool) : DetectResult :=
  if useProbe && haveFF then
    if (slice_with_ffmpeg fs tempDir audioPath probeSeconds ffmpegRun).fs.hasFile
        (slice_with_ffmpeg fs tempDir audioPath probeSeconds ffmpegRun).path then
      detectOnProbe
        (((slice_with_ffmpeg fs tempDir audioPath probeSeconds ffmpegRun).fs.removeFile
            (slice_with_ffmpeg fs tempDir audioPath probeSeconds ffmpegRun).path).removeDir
          tempDir)
        (slice_with_ffmpeg fs tempDir audioPath probeSeconds ffmpegRun).stderr api
    else
      detectOnTarget (slice_with_ffmpeg fs tempDir audioPath probeSeconds ffmpegRun).fs
        (slice_with_ffmpeg fs tempDir audioPath probeSeconds ffmpegRun).stderr 1 api
  else
    detectOnTarget fs [] 0 api

theorem detectOnProbe_fs (c : FS) (errs : List String) (api : Except String String) :
    (detectOnProbe c errs api).fs = c := by
  cases api <;> rfl

theorem detectionWarning_hasStart (e : String) :
    strHasStart (detectionWarning e) "WARNING" = true :=
  strHasStart_append_left _ _ _ (strHasStart_append_left _ _ _ (by decide))

theorem exists_warning_mem (errs : List String) (e : String) :
    ∃ w ∈ errs ++ [detectionWarning e], strHasStart w "WARNING" = true :=
  ⟨detectionWarning e, List.mem_append_right _ (List.mem_cons_self _ _),
   detectionWarning_hasStart e⟩

/-- Claim C1: whenever the slicer creates a ProbeArtifact (probe requested,
ffmpeg available, ffmpeg run succeeds), the probe file and its owning
temporary directory no longer exist in the file system returned by
`detect_language_with_probe`, for every outcome `api` of the detection call
— successful detection, detection returning no language, and the call
raising are all values of `api`. -/
theorem detect_probe_cleanup (fs : FS) (tempDir audioPath : String)
    (api : Except String String) (probeSeconds : Nat) :
    probeFilePath tempDir ∉ (detect_language_with_probe fs true (Except.ok ()) tempDir api
        audioPath probeSeconds true).fs.files
    ∧ tempDir ∉ (detect_language_with_probe fs true (Except.ok ()) tempDir api
        audioPath probeSeconds true).fs.dirs := by
  have hcond : (slice_with_ffmpeg fs tempDir audioPath probeSeconds (Except.ok ())).fs.hasFile
      (slice_with_ffmpeg fs tempDir audioPath probeSeconds (Except.ok ())).path = true := by
    simp [slice_with_ffmpeg, FS.hasFile]
  have hr : detect_language_with_probe fs true (Except.ok ()) tempDir api
        audioPath probeSeconds true
      = detectOnProbe
          (((slice_with_ffmpeg fs tempDir audioPath probeSeconds (Except.ok ())).fs.removeFile
              (slice_with_ffmpeg fs tempDir audioPath probeSeconds (Except.ok ())).path).removeDir
            tempDir)
          (slice_with_ffmpeg fs tempDir audioPath probeSeconds (Except.ok ())).stderr api := by
    simp only [detect_language_with_probe, Bool.and_self, if_true]
    rw [if_pos hcond]
  rw [hr, detectOnProbe_fs]
  constructor
  · exact not_mem_filter_ne _ _
  · exact not_mem_filter_ne _ _

/-- Claim C3: when the detection-path API call raises (the `Except.error`
case of the `api` oracle; keyword classification itself is a total
function), `detect_language_with_probe` absorbs the exception: it returns a
value whose language is `none`, and a line starting with `WARNING` is
emitted; the overall transcription is never aborted, the function being
total in the oracle. -/
theorem detect_error_absorbed (fs : FS) (haveFF : Bool) (ffmpegRun : Except String Unit)
    (tempDir audioPath : String) (probeSeconds : Nat) (useProbe : Bool) (e : String) :
    (detect_language_with_probe fs haveFF ffmpegRun tempDir (Except.error e)
        audioPath probeSeconds useProbe).language = none
    ∧ ∃ w ∈ (detect_language_with_probe fs haveFF ffmpegRun tempDir (Except.error e)
        audioPath probeSeconds useProbe).stderr, strHasStart w "WARNING" = true := by
  by_cases hc : (useProbe && haveFF) = true
  · by_cases hf : ((slice_with_ffmpeg fs tempDir audioPath probeSeconds ffmpegRun).fs.hasFile
        (slice_with_ffmpeg fs tempDir audioPath probeSeconds ffmpegRun).path) = true
    · have hr : detect_language_with_probe fs haveFF ffmpegRun tempDir (Except.error e)
            audioPath probeSeconds useProbe
          = detectOnProbe
              (((slice_with_ffmpeg fs tempDir audioPath probeSeconds ffmpegRun).fs.removeFile
                  (slice_with_ffmpeg fs tempDir audioPath probeSeconds ffmpegRun).path).removeDir
                tempDir)
              (slice_with_ffmpeg fs tempDir audioPath probeSeconds ffmpegRun).stderr
              (Except.error e) := by
        simp only [detect_language_with_probe, hc, if_true]
        rw [if_pos hf]
      rw [hr]
      exact ⟨rfl, exists_warning_mem _ e⟩
    · have hr : detect_language_with_probe fs haveFF ffmpegRun tempDir (Except.error e)
            audioPath probeSeconds useProbe
          = detectOnTarget (slice_with_ffmpeg fs tempDir audioPath probeSeconds ffmpegRun).fs
              (slice_with_ffmpeg fs tempDir audioPath probeSeconds ffmpegRun).stderr 1
              (Except.error e) := by
        simp only [detect_language_with_probe, hc, if_true]
        rw [if_neg hf]
      rw [hr]
      exact ⟨rfl, exists_warning_mem _ e⟩
  · have hr : detect_language_with_probe fs haveFF ffmpegRun tempDir (Except.error e)
          audioPath probeSeconds useProbe
        = detectOnTarget fs [] 0 (Except.error e) := by
      simp only [detect_language_with_probe]
      rw [if_neg hc]
    rw [hr]
    exact ⟨rfl, exists_warning_mem _ e⟩

/-! ## TranscriptionClient — response normalization -/

/-- A JSON-like value of the canonical normalized mapping. -/
inductive JsonVal where
  | nullV
  | boolV (b : Bool)
  | numV (n : Int)
  | strV (s : String)
deriving DecidableEq, Repr

/-- A canonical mapping of response fields. -/
abbrev JsonObj := List (String × JsonVal)

/-- A provider response object, seen through the three extraction
strategies: the primary structured accessor (`model_dump()`), the secondary
one (`to_dict()`), and JSON-parsing the textual representation
(`json.loads(str(response))`); `none` models the strategy raising or the
parse failing. -/
structure ProviderResponse where
  model_dump : Option JsonObj
  to_dict : Option JsonObj
  json_of_text : Option JsonObj
deriving DecidableEq, Repr

/-- The `ResponseFormatError` message when no strategy succeeds. -/
def responseFormatMsg : String := "Could not convert transcription response to dict"

/-- Modelled from the spec: the response normalization of `transcribe_full`
in the missing `core/transcription.py` (spec §4.3, §9) — try the three
extraction strategies in a fixed order, the first success wins; if every
avenue fails, fail with a `ResponseFormatError`. -/
def normalize_response (r : ProviderResponse) : Except String JsonObj :=
  match r.model_dump with
  | some m => Except.ok m
  | none =>
    match r.to_dict with
    | some m => Except.ok m
    | none =>
      match r.json_of_text with
      | some m => Except.ok m
      | none => Except.error responseFormatMsg

/-- Claim C6: normalization tries exactly the three strategies in the fixed
order `model_dump`, `to_dict`, JSON-parse of the textual representation,
and yields the result of the first that succeeds; if all three fail the
call fails with the `ResponseFormatError`. -/
theorem normalize_response_spec (r : ProviderResponse) :
    (∀ m, r.model_dump = some m → normalize_response r = Except.ok m)
    ∧ (∀ m, r.model_dump = none → r.to_dict = some m → normalize_response r = Except.ok m)
    ∧ (∀ m, r.model_dump = none → r.to_dict = none → r.json_of_text = some m →
        normalize_response r = Except.ok m)
    ∧ (r.model_dump = none → r.to_dict = none → r.json_of_text = none →
        normalize_response r = Except.error responseFormatMsg) := by
  refine ⟨?_, ?_, ?_, ?_⟩
  · intro m h1
    simp [normalize_response, h1]
  · intro m h1 h2
    simp [normalize_response, h1, h2]
  · intro m h1 h2 h3
    simp [normalize_response, h1, h2, h3]
  · intro h1 h2 h3
    simp [normalize_response, h1, h2, h3]

/-- A response whose primary accessor succeeds. -/
def respViaDump : ProviderResponse :=
  { model_dump := some [("text", JsonVal.strV "via model_dump")],
    to_dict := none, json_of_text := none }

/-- A response where only the secondary accessor succeeds. -/
def respViaDict : ProviderResponse :=
  { model_dump := none,
    to_dict := some [("text", JsonVal.strV "via to_dict")], json_of_text := none }

/-- A response where only the JSON parse of the textual form succeeds. -/
def respViaJson : ProviderResponse :=
  { model_dump := none, to_dict := none,
    json_of_text := some [("text", JsonVal.strV "via json.loads")] }

/-- A response on which every strategy fails. -/
def respNoAvenue : ProviderResponse :=
  { model_dump := none, to_dict := none, json_of_text := none }

/-- Witness for C6: the four strategy outcomes at concrete responses. -/
theorem normalize_response_spec_witness :
    normalize_response respViaDump = Except.ok [("text", JsonVal.strV "via model_dump")]
    ∧ normalize_response respViaDict = Except.ok [("text", JsonVal.strV "via to_dict")]
    ∧ normalize_response respViaJson = Except.ok [("text", JsonVal.strV "via json.loads")]
    ∧ normalize_response respNoAvenue = Except.error responseFormatMsg :=
  ⟨(normalize_response_spec respViaDump).1 _ rfl,
   (normalize_response_spec respViaDict).2.1 _ rfl rfl,
   (normalize_response_spec respViaJson).2.2.1 _ rfl rfl rfl,
   (normalize_response_spec respNoAvenue).2.2.2 rfl rfl rfl⟩

/-! ## TranscriptionOrchestrator — validation -/

/-- The typed errors of the request path. -/
inductive TError where
  | fileNotFound (msg : String)
  | unsupportedFileType (msg : String)
  | apiError (msg : String)
  | responseFormatError (msg : String)
deriving DecidableEq, Repr

/-- The `FileNotFoundError` message (pinned by
`test_file_not_found_raises_error`). -/
def notFoundMsg (p : String) : String := "Audio file not found: " ++ p

/-- The `UnsupportedFileType` message, naming the rejected extension (pinned
by `test_unsupported_file_type_raises_error`). -/
def unsupportedMsg (ext : String) : String :=
  ("Unsupported file type " ++ ext) ++ ". Allowed types: .mp3, .m4a, .wav"

/-- The extension of the final path component, as Python `Path.suffix`:
from the last dot of the name, empty when the name has no dot, starts with
its only dot, or ends with the dot. -/
def pathSuffix (p : String) : String :=
  let name := (p.data.reverse.takeWhile (fun c => c ≠ '/')).reverse
  let r := name.reverse
  let ext := r.takeWhile (fun c => c ≠ '.')
  if ext.length < r.length ∧ ext ≠ [] ∧ r.drop (ext.length + 1) ≠ [] then
    String.mk ('.' :: ext.reverse)
  else ""

/-- Modelled from the spec: `validate_audio_file` of the missing
`core/transcription.py` (spec §4.5, §7) — resolve the input path (the
`resolve` oracle models `expanduser().resolve()`), fail fast with a typed
`FileNotFound` error when it is not an existing file, with a typed
`UnsupportedFileType` error naming the rejected extension when the
lowercased extension is outside the allowed set, and return the resolved
absolute path otherwise. -/
def validate_audio_file (fs : FS) (resolve : String → String) (path : String) :
    Except TError String :=
  if fs.hasFile (resolve path) then
    if TranscriptionConfig.is_extension_allowed (lowerStr (pathSuffix (resolve path))) then
      Except.ok (resolve path)
    else
      Except.error (TError.unsupportedFileType
        (unsupportedMsg (lowerStr (pathSuffix (resolve path)))))
  else
    Except.error (TError.fileNotFound (notFoundMsg (resolve path)))

/-- Claim C9: validation fails fast with typed errors: a path that does not
resolve to an existing file yields the `FileNotFound` error; an existing
file whose (case-insensitively normalized) extension is outside the allowed
set yields the `UnsupportedFileType` error whose message contains the
rejected extension; a valid path is returned in its resolved form. -/
theorem validate_audio_file_spec (fs : FS) (resolve : String → String) (path : String) :
    (fs.hasFile (resolve path) = false →
      validate_audio_file fs resolve path
        = Except.error (TError.fileNotFound (notFoundMsg (resolve path))))
    ∧ (fs.hasFile (resolve path) = true →
       TranscriptionConfig.is_extension_allowed (lowerStr (pathSuffix (resolve path))) = false →
        validate_audio_file fs resolve path
          = Except.error (TError.unsupportedFileType
              (unsupportedMsg (lowerStr (pathSuffix (resolve path)))))
        ∧ strContainsSub (unsupportedMsg (lowerStr (pathSuffix (resolve path))))
            (lowerStr (pathSuffix (resolve path))) = true)
    ∧ (fs.hasFile (resolve path) = true →
       TranscriptionConfig.is_extension_allowed (lowerStr (pathSuffix (resolve path))) = true →
        validate_audio_file fs resolve path = Except.ok (resolve path)) := by
  refine ⟨?_, ?_, ?_⟩
  · intro h
    simp [validate_audio_file, h]
  · intro h hext
    constructor
    · simp [validate_audio_file, h, hext]
    · exact strContainsSub_middle _ _ _
  · intro h hext
    simp [validate_audio_file, h, hext]

/-- A concrete file system for the validation witness. -/
def fsW : FS :=
  { files := ["/home/user/test.mp3", "/home/user/test.flac"], dirs := [] }

/-- A concrete resolver for the validation witness. -/
def resolveW : String → String := fun s => "/home/user/" ++ s

/-- Witness for C9: the three validation outcomes at concrete paths. -/
theorem validate_audio_file_spec_witness :
    validate_audio_file fsW resolveW "missing.mp3"
      = Except.error (TError.fileNotFound (notFoundMsg "/home/user/missing.mp3"))
    ∧ (validate_audio_file fsW resolveW "test.flac"
        = Except.error (TError.unsupportedFileType (unsupportedMsg ".flac"))
       ∧ strContainsSub (unsupportedMsg ".flac") ".flac" = true)
    ∧ validate_audio_file fsW resolveW "test.mp3" = Except.ok "/home/user/test.mp3" :=
  ⟨(validate_audio_file_spec fsW resolveW "missing.mp3").1 (by decide),
   (validate_audio_file_spec fsW resolveW "test.flac").2.1 (by decide) (by decide),
   (validate_audio_file_spec fsW resolveW "test.mp3").2.2 (by decide) (by decide)⟩

/-! ## TranscriptionOrchestrator — `transcribe_audio` -/

/-- The `_meta` block of a transcription result (spec §6). -/
structure TranscriptionMeta where
  model : String
  detect_model : String
  source_file : String
  language_routing_enabled : Bool
  forced_language : Bool
  routed_language : Option String
  probe_seconds : Option Nat
  ffmpeg_used : Bool
deriving DecidableEq, Repr

/-- A transcription result: the normalized response body plus `_meta`. -/
structure TranscriptionResult where
  body : JsonObj
  meta : TranscriptionMeta
deriving DecidableEq, Repr

/-- The request parameters of `transcribe_audio`. -/
structure TranscribeArgs where
  audioPath : String
  model : String
  detect_model : String
  language : Option String
  probe_seconds : Nat
  use_probe : Bool
  language_routing : Bool

/-- The external collaborators of one request, as oracles: the file system,
the path resolver, ffmpeg availability and run outcome, the fresh temp
directory name, and the two API calls (probe detection and full
transcription), each an `Except` standing for return-or-raise. -/
structure Env where
  fs : FS
  resolve : String → String
  haveFF : Bool
  ffmpegRun : Except String Unit
  tempDir : String
  detectApi : Except String String
  fullApi : Except String ProviderResponse

/-- The observable outcome of one `transcribe_audio` request: result or
typed error, the number of detection and slicing invocations, the final
file system and the stderr lines. -/
structure RunOutcome where
  result : Except TError TranscriptionResult
  detectCalls : Nat
  sliceCalls : Nat
  fs : FS
  stderr : List String

/-- Modelled from the spec: `transcribe_full` of the missing
`core/transcription.py` (spec §4.3) — submit the full audio; a transport
failure propagates as an `ApiError`, otherwise the response is normalized,
a normalization failure propagating as a `ResponseFormatError`. -/
def transcribe_full (fullApi : Except String ProviderResponse) : Except TError JsonObj :=
  match fullApi with
  | Except.error e => Except.error (TError.apiError e)
  | Except.ok r =>
    match normalize_response r with
    | Except.ok obj => Except.ok obj
    | Except.error m => Except.error (TError.responseFormatError m)

/-- The `_meta` block reflecting the parameters actually used:
`probe_seconds` is the configured value only when the ffmpeg probe was
actually used, otherwise null. -/
def buildMeta (args : TranscribeArgs) (sourceFile : String) (routed : Option String)
    (ffmpegUsed : Bool) : TranscriptionMeta :=
  { model := args.model, detect_model := args.detect_model, source_file := sourceFile,
    language_routing_enabled := args.language_routing,
    forced_language := args.language.isSome,
    routed_language := routed,
    probe_seconds := if ffmpegUsed then some args.probe_seconds else none,
    ffmpeg_used := ffmpegUsed }

/-- The tail of the orchestrator: the full transcription call (errors
propagate unchanged) and the metadata merge. -/
def finishRun (env : Env) (args : TranscribeArgs) (sourceFile : String)
    (routed : Option String) (ffmpegUsed : Bool) (detectCalls sliceCalls : Nat)
    (fs : FS) (errs : List String) : RunOutcome :=
  match transcribe_full env.fullApi with
  | Except.error e =>
      { result := Except.error e, detectCalls := detectCalls,
        sliceCalls := sliceCalls, fs := fs, stderr := errs }
  | Except.ok body =>
      { result := Except.ok ⟨body, buildMeta args sourceFile routed ffmpegUsed⟩,
        detectCalls := detectCalls, sliceCalls := sliceCalls, fs := fs, stderr := errs }

/-- Modelled from the spec: `transcribe_audio` of the missing
`core/transcription.py` (spec §4.5) — validate the audio reference; with a
forced language skip the entire routing machine (no detection, no slicing);
otherwise run probe-based detection only when language routing is enabled;
then run the full transcription and assemble the result with provenance
metadata. -/
def transcribe_audio (env : Env) (args : TranscribeArgs) : RunOutcome :=
  match validate_audio_file env.fs env.resolve args.audioPath with
  | Except.error e =>
      { result := Except.error e, detectCalls := 0, sliceCalls := 0,
        fs := env.fs, stderr := [] }
  | Except.ok p =>
    match args.language with
    | some _ => finishRun env args p none false 0 0 env.fs []
    | none =>
      if args.language_routing then
        finishRun env args p
          (detect_language_with_probe env.fs env.haveFF env.ffmpegRun env.tempDir
            env.detectApi p args.probe_seconds args.use_probe).language
          (detect_language_with_probe env.fs env.haveFF env.ffmpegRun env.tempDir
            env.detectApi p args.probe_seconds args.use_probe).ffmpegUsed
          1
          (detect_language_with_probe env.fs env.haveFF env.ffmpegRun env.tempDir
            env.detectApi p args.probe_seconds args.use_probe).sliceCalls
          (detect_language_with_probe env.fs env.haveFF env.ffmpegRun env.tempDir
            env.detectApi p args.probe_seconds args.use_probe).fs
          (detect_language_with_probe env.fs env.haveFF env.ffmpegRun env.tempDir
            env.detectApi p args.probe_seconds args.use_probe).stderr
      else
        finishRun env args p none false 0 0 env.fs []

theorem finishRun_detectCalls (env : Env) (args : TranscribeArgs) (p : String)
    (routed : Option String) (u : Bool) (dc sc : Nat) (fs : FS) (errs : List String) :
    (finishRun env args p routed u dc sc fs errs).detectCalls = dc := by
  unfold finishRun
  cases transcribe_full env.fullApi <;> rfl

theorem finishRun_sliceCalls (env : Env) (args : TranscribeArgs) (p : String)
    (routed : Option String) (u : Bool) (dc sc : Nat) (fs : FS) (errs : List String) :
    (finishRun env args p routed u dc sc fs errs).sliceCalls = sc := by
  unfold finishRun
  cases transcribe_full env.fullApi <;> rfl

theorem finishRun_meta (env : Env) (args : TranscribeArgs) (p : String)
    (routed : Option String) (u : Bool) (dc sc : Nat) (fs : FS) (errs : List String) :
    ∀ r, (finishRun env args p routed u dc sc fs errs).result = Except.ok r →
      r.meta = buildMeta args p routed u := by
  intro r hr
  unfold finishRun at hr
  cases hfull : transcribe_full env.fullApi with
  | error e => rw [hfull] at hr; exact absurd hr (by simp)
  | ok body =>
    rw [hfull] at hr
    have := Except.ok.inj hr
    rw [← this]

theorem detectOnTarget_ffmpegUsed (fs : FS) (errs : List String) (sc : Nat)
    (api : Except String String) : (detectOnTarget fs errs sc api).ffmpegUsed = false := by
  cases api <;> rfl

theorem detect_ffmpegUsed_no_ffmpeg (fs : FS) (ffmpegRun : Except String Unit)
    (tempDir audioPath : String) (api : Except String String) (ps : Nat) (up : Bool) :
    (detect_language_with_probe fs false ffmpegRun tempDir api audioPath ps up).ffmpegUsed
      = false := by
  simp only [detect_language_with_probe, Bool.and_false]
  rw [if_neg (by simp)]
  exact detectOnTarget_ffmpegUsed fs [] 0 api

theorem detect_ffmpegUsed_slice_failed (fs : FS) (haveFF : Bool)
    (tempDir audioPath e : String) (api : Except String String) (ps : Nat) (up : Bool)
    (hsent : fs.hasFile ffmpegFailedPath = false) :
    (detect_language_with_probe fs haveFF (Except.error e) tempDir api
        audioPath ps up).ffmpegUsed = false := by
  by_cases hc : (up && haveFF) = true
  · have hf : (slice_with_ffmpeg fs tempDir audioPath ps (Except.error e)).fs.hasFile
        (slice_with_ffmpeg fs tempDir audioPath ps (Except.error e)).path = false := by
      simpa [slice_with_ffmpeg, FS.hasFile] using hsent
    simp only [detect_language_with_probe, hc, if_true]
    rw [if_neg (by simp [hf])]
    exact detectOnTarget_ffmpegUsed _ _ _ api
  · simp only [detect_language_with_probe]
    rw [if_neg hc]
    exact detectOnTarget_ffmpegUsed _ _ _ api

/-- Claim C2: with a caller-supplied forced language, no detection call and
no slicing call occurs — `detect_language_with_probe` is never invoked —
and the result metadata records `forced_language = true` and
`ffmpeg_used = false`, even when language routing is enabled (the theorem
places no constraint on `args.language_routing`). -/
theorem forced_language_skips_detection (env : Env) (args : TranscribeArgs) (l : String)
    (h : args.language = some l) :
    (transcribe_audio env args).detectCalls = 0
    ∧ (transcribe_audio env args).sliceCalls = 0
    ∧ ∀ r, (transcribe_audio env args).result = Except.ok r →
        r.meta.forced_language = true ∧ r.meta.ffmpeg_used = false := by
  cases hval : validate_audio_file env.fs env.resolve args.audioPath with
  | error e =>
    refine ⟨?_, ?_, ?_⟩
    · simp [transcribe_audio, hval]
    · simp [transcribe_audio, hval]
    · intro r hr
      simp [transcribe_audio, hval] at hr
  | ok p =>
    have hrun : transcribe_audio env args = finishRun env args p none false 0 0 env.fs [] := by
      simp [transcribe_audio, hval, h]
    refine ⟨?_, ?_, ?_⟩
    · rw [hrun]; exact finishRun_detectCalls env args p none false 0 0 env.fs []
    · rw [hrun]; exact finishRun_sliceCalls env args p none false 0 0 env.fs []
    · intro r hr
      rw [hrun] at hr
      have hm := finishRun_meta env args p none false 0 0 env.fs [] r hr
      rw [hm]
      constructor
      · simp [buildMeta, h]
      · rfl

/-- Claim C7: with language routing disabled and no forced language, no
detection call and no slicing call occurs, and the result metadata records
`routed_language = none` and `ffmpeg_used = false` (the remote API
auto-detects on the full call). -/
theorem routing_disabled_no_detection (env : Env) (args : TranscribeArgs)
    (h1 : args.language = none) (h2 : args.language_routing = false) :
    (transcribe_audio env args).detectCalls = 0
    ∧ (transcribe_audio env args).sliceCalls = 0
    ∧ ∀ r, (transcribe_audio env args).result = Except.ok r →
        r.meta.routed_language = none ∧ r.meta.ffmpeg_used = false := by
  cases hval : validate_audio_file env.fs env.resolve args.audioPath with
  | error e =>
    refine ⟨?_, ?_, ?_⟩
    · simp [transcribe_audio, hval]
    · simp [transcribe_audio, hval]
    · intro r hr
      simp [transcribe_audio, hval] at hr
  | ok p =>
    have hrun : transcribe_audio env args = finishRun env args p none false 0 0 env.fs [] := by
      simp [transcribe_audio, hval, h1, h2]
    refine ⟨?_, ?_, ?_⟩
    · rw [hrun]; exact finishRun_detectCalls env args p none false 0 0 env.fs []
    · rw [hrun]; exact finishRun_sliceCalls env args p none false 0 0 env.fs []
    · intro r hr
      rw [hrun] at hr
      have hm := finishRun_meta env args p none false 0 0 env.fs [] r hr
      rw [hm]
      exact ⟨rfl, rfl⟩

/-- Claim C8: the assembled metadata reflects the parameters actually used:
the `probe_seconds` field equals the configured probe duration exactly when
`ffmpeg_used` is true and is null otherwise — in particular it is null when
the slicing tool was unavailable (`haveFF = false`) and when the tool
failed (`ffmpegRun` an error, with the sentinel not a real file). -/
theorem metadata_probe_seconds (env : Env) (args : TranscribeArgs) :
    ∀ r, (transcribe_audio env args).result = Except.ok r →
      r.meta.probe_seconds
          = (if r.meta.ffmpeg_used = true then some args.probe_seconds else none)
      ∧ (env.haveFF = false → r.meta.ffmpeg_used = false)
      ∧ (env.fs.hasFile ffmpegFailedPath = false →
          ∀ e, env.ffmpegRun = Except.error e → r.meta.ffmpeg_used = false) := by
  intro r hr
  cases hval : validate_audio_file env.fs env.resolve args.audioPath with
  | error e =>
    rw [transcribe_audio] at hr
    rw [hval] at hr
    exact absurd hr (by simp)
  | ok p =>
    rw [transcribe_audio] at hr
    rw [hval] at hr
    cases hlang : args.language with
    | some l =>
      rw [hlang] at hr
      have hm := finishRun_meta env args p none false 0 0 env.fs [] r hr
      rw [hm]
      exact ⟨rfl, fun _ => rfl, fun _ _ _ => rfl⟩
    | none =>
      rw [hlang] at hr
      by_cases hroute : args.language_routing = true
      · rw [hroute] at hr
        simp only [if_true] at hr
        have hm := finishRun_meta env args p
          (detect_language_with_probe env.fs env.haveFF env.ffmpegRun env.tempDir
            env.detectApi p args.probe_seconds args.use_probe).language
          (detect_language_with_probe env.fs env.haveFF env.ffmpegRun env.tempDir
            env.detectApi p args.probe_seconds args.use_probe).ffmpegUsed
          1
          (detect_language_with_probe env.fs env.haveFF env.ffmpegRun env.tempDir
            env.detectApi p args.probe_seconds args.use_probe).sliceCalls
          (detect_language_with_probe env.fs env.haveFF env.ffmpegRun env.tempDir
            env.detectApi p args.probe_seconds args.use_probe).fs
          (detect_language_with_probe env.fs env.haveFF env.ffmpegRun env.tempDir
            env.detectApi p args.probe_seconds args.use_probe).stderr r hr
        rw [hm]
        refine ⟨?_, ?_, ?_⟩
        · simp [buildMeta]
        · intro hff
          show (detect_language_with_probe env.fs env.haveFF env.ffmpegRun env.tempDir
            env.detectApi p args.probe_seconds args.use_probe).ffmpegUsed = false
          rw [hff]
          exact detect_ffmpegUsed_no_ffmpeg env.fs env.ffmpegRun env.tempDir p
            env.detectApi args.probe_seconds args.use_probe
        · intro hsent e hrun
          show (detect_language_with_probe env.fs env.haveFF env.ffmpegRun env.tempDir
            env.detectApi p args.probe_seconds args.use_probe).ffmpegUsed = false
          rw [hrun]
          exact detect_ffmpegUsed_slice_failed env.fs env.haveFF env.tempDir p e
            env.detectApi args.probe_seconds args.use_probe hsent
      · have hrf : args.language_routing = false := by
          cases hb : args.language_routing
          · rfl
          · exact absurd hb hroute
        rw [hrf] at hr
        simp only [if_false] at hr
        have hm := finishRun_meta env args p none false 0 0 env.fs [] r hr
        rw [hm]
        exact ⟨rfl, fun _ => rfl, fun _ _ _ => rfl⟩

/-- A concrete file system for the orchestrator witnesses. -/
def fsO : FS := { files := ["/home/user/test.mp3"], dirs := [] }

/-- Witness for C1: the cleanup invariant at a concrete run whose detection
call raises. -/
theorem detect_probe_cleanup_witness :
    probeFilePath "/tmp/stt_probe_w" ∉ (detect_language_with_probe fsO true (Except.ok ())
        "/tmp/stt_probe_w" (Except.error "API Error") "/home/user/test.mp3" 25 true).fs.files
    ∧ "/tmp/stt_probe_w" ∉ (detect_language_with_probe fsO true (Except.ok ())
        "/tmp/stt_probe_w" (Except.error "API Error") "/home/user/test.mp3" 25 true).fs.dirs :=
  detect_probe_cleanup fsO "/tmp/stt_probe_w" "/home/user/test.mp3" (Except.error "API Error") 25

/-- Witness for C3: a concrete failing detection call resolves to no
language instead of propagating. -/
theorem detect_error_absorbed_witness :
    (detect_language_with_probe fsO false (Except.error "no ffmpeg") "/tmp/stt_probe_w"
        (Except.error "API Error") "/home/user/test.mp3" 25 false).language = none :=
  (detect_error_absorbed fsO false (Except.error "no ffmpeg") "/tmp/stt_probe_w"
    "/home/user/test.mp3" 25 false "API Error").1

/-- Witness for C4: a concrete failing ffmpeg run returns the sentinel, and
the sentinel differs from a concrete legitimate probe path. -/
theorem slice_with_ffmpeg_failure_contract_witness :
    (slice_with_ffmpeg fsO "/tmp/stt_probe_w" "/home/user/test.mp3" 25
        (Except.error "boom")).path = ffmpegFailedPath
    ∧ probeFilePath "/tmp/stt_probe_w" ≠ ffmpegFailedPath :=
  ⟨(slice_with_ffmpeg_failure_contract.1 fsO "/tmp/stt_probe_w" "/home/user/test.mp3"
      25 "boom").1,
   slice_with_ffmpeg_failure_contract.2.1 "/tmp/stt_probe_w"⟩

/-- A concrete resolver for the orchestrator witnesses. -/
def resolveO : String → String := fun s => "/home/user/" ++ s

/-- A concrete provider response for the orchestrator witnesses. -/
def respO : ProviderResponse :=
  { model_dump := some [("text", JsonVal.strV "Test")], to_dict := none, json_of_text := none }

/-- A concrete environment: ffmpeg unavailable, detection API succeeds,
full transcription succeeds. -/
def envO : Env :=
  { fs := fsO, resolve := resolveO, haveFF := false,
    ffmpegRun := Except.error "no ffmpeg", tempDir := "/tmp/stt_probe_o",
    detectApi := Except.ok "hello", fullApi := Except.ok respO }

/-- A request with a forced language and routing enabled. -/
def argsForced : TranscribeArgs :=
  { audioPath := "test.mp3", model := "gpt-4o-transcribe",
    detect_model := "gpt-4o-mini-transcribe", language := some "es",
    probe_seconds := 25, use_probe := true, language_routing := true }

/-- A request with no forced language and routing disabled. -/
def argsPlain : TranscribeArgs :=
  { audioPath := "test.mp3", model := "gpt-4o-transcribe",
    detect_model := "gpt-4o-mini-transcribe", language := none,
    probe_seconds := 15, use_probe := false, language_routing := false }

/-- A placeholder result used only to project a known-`ok` outcome. -/
def dummyResult : TranscriptionResult :=
  { body := [],
    meta := { model := "", detect_model := "", source_file := "",
              language_routing_enabled := false, forced_language := false,
              routed_language := none, probe_seconds := none, ffmpeg_used := false } }

/-- The concrete successful result of the forced-language run. -/
def resForced : TranscriptionResult :=
  ((transcribe_audio envO argsForced).result.toOption).getD dummyResult

/-- The concrete successful result of the routing-disabled run. -/
def resPlain : TranscriptionResult :=
  ((transcribe_audio envO argsPlain).result.toOption).getD dummyResult

/-- Witness for C2: the forced-language run at a concrete environment. -/
theorem forced_language_skips_detection_witness :
    (transcribe_audio envO argsForced).detectCalls = 0
    ∧ (transcribe_audio envO argsForced).sliceCalls = 0
    ∧ resForced.meta.forced_language = true ∧ resForced.meta.ffmpeg_used = false :=
  ⟨(forced_language_skips_detection envO argsForced "es" rfl).1,
   (forced_language_skips_detection envO argsForced "es" rfl).2.1,
   (forced_language_skips_detection envO argsForced "es" rfl).2.2 resForced rfl⟩

/-- Witness for C7: the routing-disabled run at a concrete environment. -/
theorem routing_disabled_no_detection_witness :
    (transcribe_audio envO argsPlain).detectCalls = 0
    ∧ (transcribe_audio envO argsPlain).sliceCalls = 0
    ∧ resPlain.meta.routed_language = none ∧ resPlain.meta.ffmpeg_used = false :=
  ⟨(routing_disabled_no_detection envO argsPlain rfl rfl).1,
   (routing_disabled_no_detection envO argsPlain rfl rfl).2.1,
   (routing_disabled_no_detection envO argsPlain rfl rfl).2.2 resPlain rfl⟩

/-- Witness for C8: the metadata of a concrete successful run records a
null `probe_seconds`, the probe not having been used. -/
theorem metadata_probe_seconds_witness :
    resPlain.meta.probe_seconds
        = (if resPlain.meta.ffmpeg_used = true then some argsPlain.probe_seconds else none)
    ∧ resPlain.meta.ffmpeg_used = false :=
  ⟨(metadata_probe_seconds envO argsPlain resPlain rfl).1,
   (metadata_probe_seconds envO argsPlain resPlain rfl).2.2 (by decide) "no ffmpeg" rfl⟩

/-- Claim C10: the configuration accessors are total and never raise:
`get_model` with an unrecognized model type returns the main model,
`get_default` with a missing key returns the supplied fallback (`none` when
no fallback is given), and `get_language_keywords` for an unsupported
language code returns the empty list. -/
theorem config_accessors_total :
    (∀ t, List.lookup t TranscriptionConfig.MODELS = none →
      TranscriptionConfig.get_model t = TranscriptionConfig.get_model "main")
    ∧ (∀ k fb, List.lookup k TranscriptionConfig.DEFAULTS = none →
      TranscriptionConfig.get_default k fb = fb)
    ∧ (∀ k, List.lookup k TranscriptionConfig.DEFAULTS = none →
      TranscriptionConfig.get_default k none = none)
    ∧ (∀ l, List.lookup l TranscriptionConfig.LANGUAGE_KEYWORDS = none →
      TranscriptionConfig.get_language_keywords l = []) := by
  refine ⟨?_, ?_, ?_, ?_⟩
  · intro t h
    simp [TranscriptionConfig.get_model, h]
    rfl
  · intro k fb h
    simp [TranscriptionConfig.get_default, h]
  · intro k h
    simp [TranscriptionConfig.get_default, h]
  · intro l h
    simp [TranscriptionConfig.get_language_keywords, h]

/-- Witness for C10: the accessors evaluated at concrete unknown keys. -/
theorem config_accessors_total_witness :
    TranscriptionConfig.get_model "nonexistent" = TranscriptionConfig.get_model "main"
    ∧ TranscriptionConfig.get_default "nonexistent" (some (ConfigVal.strV "fallback"))
        = some (ConfigVal.strV "fallback")
    ∧ TranscriptionConfig.get_default "nonexistent" none = none
    ∧ TranscriptionConfig.get_language_keywords "xyz" = [] :=
  ⟨config_accessors_total.1 "nonexistent" (by decide),
   config_accessors_total.2.1 "nonexistent" (some (ConfigVal.strV "fallback")) (by decide),
   config_accessors_total.2.2.1 "nonexistent" (by decide),
   config_accessors_total.2.2.2 "xyz" (by decide)⟩
